import Mathlib

/-
Verification development for the goszakup ETL repository.

Embedded source files:
- src/src/goszakup_client.py   (class GoszakupAPIClient: _make_request, _paginate)
- src/src/database.py          (class GoszakupDB: insert_jsonb_batch, upsert_batch)
- src/dags/goszakup_etl_dag.py (task wiring of the goszakup_full_etl DAG)

Conventions of the embedding:
- A JSON scalar is a `Value` (integer or string); a JSON object returned by
  the API (an "item") is an association list `Item` in key insertion order,
  mirroring a Python dict.
- The HTTP transport is an oracle `Option String → Nat → Outcome`: for a
  request target (`none` = the initial endpoint with its params, `some c` =
  the `next_page` URL `c`) and a 0-indexed attempt number it yields either a
  parsed 2xx body, an HTTP error status (`raise_for_status`), or a
  network/timeout error.  `requests.exceptions.RequestException` covers both
  of the latter, and `_make_request` catches exactly that class.
- Wall-clock sleeps are recorded as a list of durations (seconds) so that
  the backoff schedule is observable.
- `_paginate` is a while-loop that may not terminate, so it is embedded
  with explicit fuel: `none` means "still running after `fuel` iterations".
- The database is a `PGState`: the committed table contents plus the
  pending contents visible inside the currently open transaction.
  `commit`/`rollback` are the psycopg2 `conn.commit()`/`conn.rollback()`
  calls.  A storage failure is injected by a `failAfter` oracle saying how
  many rows of the batch entered the transaction before the error.
-/

/-- A JSON scalar value as it appears in API items. -/
inductive Value where
  | int (n : Int)
  | str (s : String)
deriving DecidableEq, Repr

/-- One API record: a Python dict as an association list in insertion order. -/
abbrev Item := List (String × Value)

/-- `record.get(col)`: association-list lookup on an item, `none` if absent. -/
def itemGet : Item → String → Option Value
  | [], _ => none
  | (k, v) :: rest, c => if k = c then some v else itemGet rest c

/-- `list(record.keys())`: the keys of an item in insertion order. -/
def itemKeys (it : Item) : List String := it.map Prod.fst

/-- Parsed body of a 2xx response: `{"items": [...], "next_page": ...}`.
`items` is `response.get('items', [])`; `next_page` is
`response.get('next_page')` (`none` when the key is absent or null). -/
structure ApiResponse where
  items : List Item
  next_page : Option String
deriving DecidableEq, Repr

/-- Outcome of one HTTP attempt: a parsed 2xx body, an HTTP error raised by
`response.raise_for_status()` (carrying the status), or a network/timeout
error.  The last two are both `requests.exceptions.RequestException`. -/
inductive Outcome where
  | success (resp : ApiResponse)
  | httpError (status : Nat)
  | netError
deriving DecidableEq, Repr

/-- Whether an attempt outcome raises `requests.exceptions.RequestException`. -/
def isFailure : Outcome → Bool
  | .success _ => false
  | .httpError _ => true
  | .netError => true

/-- Observable result of `GoszakupAPIClient._make_request`: the returned
value (`None` is `none`), how many HTTP attempts were made, and every
`time.sleep` duration in order (backoff sleeps `2 ** attempt` and, after a
success, the pacing sleep `self.delay`). -/
structure ReqResult where
  response : Option ApiResponse
  attempts : Nat
  sleeps : List Nat
deriving DecidableEq, Repr

/-- The `for attempt in range(self.retry_count)` loop of `_make_request`,
with `remaining = retry_count - attempt` iterations left.  On a success the
client sleeps `delay` and returns the body; on a `RequestException` it
sleeps `2 ** attempt` and retries while `attempt < retry_count - 1`,
otherwise returns `None`.  Falling out of the loop (only possible when
`retry_count = 0`) returns `None`. -/
def makeRequestGo (outcomes : Nat → Outcome) (rc d attempt : Nat) : Nat → ReqResult
  | 0 => ⟨none, 0, []⟩
  | remaining + 1 =>
    match outcomes attempt with
    | .success resp => ⟨some resp, 1, [d]⟩
    | _ =>
      if attempt < rc - 1 then
        let r := makeRequestGo outcomes rc d (attempt + 1) remaining
        ⟨r.response, r.attempts + 1, 2 ^ attempt :: r.sleeps⟩
      else ⟨none, 1, []⟩

/-- `GoszakupAPIClient._make_request` with `retry_count = rc` and
`delay = d`, run against the attempt oracle `outcomes`. -/
def makeRequest (outcomes : Nat → Outcome) (rc d : Nat) : ReqResult :=
  makeRequestGo outcomes rc d 0 rc

/-- The `while True` loop of `GoszakupAPIClient._paginate`, with explicit
fuel.  `cur` is the pending `next_page` cursor (`none` = first request with
the original endpoint and params), `acc` is `all_items`.  Returns `none`
when the fuel runs out, i.e. the loop is still running after `fuel`
iterations. -/
def paginateGo (server : Option String → Nat → Outcome) (rc d : Nat) :
    Nat → Option String → List Item → Option (List Item)
  | 0, _, _ => none
  | fuel + 1, cur, acc =>
    match (makeRequest (server cur) rc d).response with
    | none => some acc
    | some resp =>
      match resp.next_page with
      | none => some (acc ++ resp.items)
      | some np =>
        if np = "" then some (acc ++ resp.items)
        else paginateGo server rc d fuel (some np) (acc ++ resp.items)

/-- `GoszakupAPIClient._paginate` run for at most `fuel` page requests. -/
def paginate (server : Option String → Nat → Outcome) (rc d fuel : Nat) :
    Option (List Item) :=
  paginateGo server rc d fuel none []

/-- The backoff base of `_make_request`: the hardcoded `1` second in
`time.sleep(2 ** attempt)` (i.e. `1 * 2 ** attempt`). -/
def base_delay : Nat := 1

/-- The backoff multiplier of `_make_request`: the hardcoded `2` in
`time.sleep(2 ** attempt)`. -/
def backoff_multiplier : Nat := 2

/-- A run of successful pages followed by a terminal one: starting from
cursor `cur`, each page request succeeds, each non-final page carries a
non-empty `next_page`, and the final page has `next_page` absent or `""`. -/
inductive ChainDone (server : Option String → Nat → Outcome) (rc d : Nat) :
    Option String → List ApiResponse → Prop where
  | last (cur : Option String) (resp : ApiResponse)
      (hresp : (makeRequest (server cur) rc d).response = some resp)
      (hterm : resp.next_page = none ∨ resp.next_page = some "") :
      ChainDone server rc d cur [resp]
  | step (cur : Option String) (resp : ApiResponse) (np : String)
      (rest : List ApiResponse)
      (hresp : (makeRequest (server cur) rc d).response = some resp)
      (hnp : resp.next_page = some np) (hne : np ≠ "")
      (hrest : ChainDone server rc d (some np) rest) :
      ChainDone server rc d cur (resp :: rest)

/-- A run of successful pages followed by a page whose request exhausts all
retries (`_make_request` returns `None`): starting from cursor `cur`, the
pages in the list succeed with non-empty `next_page`, and the request for
the cursor after the last listed page fails. -/
inductive ChainFail (server : Option String → Nat → Outcome) (rc d : Nat) :
    Option String → List ApiResponse → Prop where
  | last (cur : Option String)
      (hresp : (makeRequest (server cur) rc d).response = none) :
      ChainFail server rc d cur []
  | step (cur : Option String) (resp : ApiResponse) (np : String)
      (rest : List ApiResponse)
      (hresp : (makeRequest (server cur) rc d).response = some resp)
      (hnp : resp.next_page = some np) (hne : np ≠ "")
      (hrest : ChainFail server rc d (some np) rest) :
      ChainFail server rc d cur (resp :: rest)

/-- A server on which every request succeeds and every response points its
`next_page` at the same cursor "A": the cursor "A" is visited on the second
request and revisited on every request after that. -/
def cycServer : Option String → Nat → Outcome :=
  fun _ _ => .success ⟨[[("k", Value.int 0)]], some "A"⟩

/-- A server whose collection is genuinely empty: the first page succeeds
with no items and no `next_page`. -/
def emptyColServer : Option String → Nat → Outcome :=
  fun _ _ => .success ⟨[], none⟩

/-- A server on which every attempt of every request times out. -/
def downServer : Option String → Nat → Outcome :=
  fun _ _ => .netError

-- Concrete test data for the pagination claims.

/-- `n` consecutive single-field items with integer payloads `a ..< a+n`. -/
def pageItems (a n : Nat) : List Item :=
  (List.range' a n).map (fun k => [("i", Value.int (Int.ofNat k))])

/-- A three-page server with page sizes 10, 10 and 5 and `next_page` null
on the last page. -/
def srv7 : Option String → Nat → Outcome :=
  fun cur _ =>
    match cur with
    | none => .success ⟨pageItems 0 10, some "p2"⟩
    | some "p2" => .success ⟨pageItems 10 10, some "p3"⟩
    | some "p3" => .success ⟨pageItems 20 5, none⟩
    | some _ => .netError

/-- The three pages served by `srv7`. -/
def pages7 : List ApiResponse :=
  [⟨pageItems 0 10, some "p2"⟩, ⟨pageItems 10 10, some "p3"⟩,
   ⟨pageItems 20 5, none⟩]

/-- A server whose first page succeeds with two items but whose second page
fails on every attempt. -/
def srvTailFail : Option String → Nat → Outcome :=
  fun cur _ =>
    match cur with
    | none => .success ⟨[[("k", Value.int 1)], [("k", Value.int 2)]], some "p2"⟩
    | some _ => .netError

/-- A server whose complete collection is exactly the first page of
`srvTailFail`: same two items, `next_page` null. -/
def srvComplete : Option String → Nat → Outcome :=
  fun _ _ => .success ⟨[[("k", Value.int 1)], [("k", Value.int 2)]], none⟩

-- ============================================================
-- Database model (src/src/database.py, class GoszakupDB)
-- ============================================================

/-- State of one PostgreSQL table through a psycopg2 connection:
`committed` is what is durably in the table, `pending` is what the current
(implicitly opened) transaction sees.  Between batch calls the connection
has no uncommitted work, so `pending = committed`. -/
structure PGState (ρ : Type) where
  committed : List ρ
  pending : List ρ
deriving DecidableEq, Repr

/-- `self.conn.commit()`: the pending contents become durable. -/
def pgCommit {ρ : Type} (s : PGState ρ) : PGState ρ :=
  ⟨s.pending, s.pending⟩

/-- `self.conn.rollback()`: the pending contents revert to the committed
ones. -/
def pgRollback {ρ : Type} (s : PGState ρ) : PGState ρ :=
  ⟨s.committed, s.committed⟩

/-- Result of one batch call: the connection state afterwards, whether the
call returned normally (`false` = the caught exception was re-raised after
the rollback), and how many storage commands were issued (the
`execute_values` plus the `commit` or `rollback`). -/
structure PersistResult (ρ : Type) where
  state : PGState ρ
  ok : Bool
  storageCalls : Nat
deriving DecidableEq, Repr

/-- A row of a JSONB reference table: the `(data, created_at)` pair written
by `insert_jsonb_batch`.  The timestamp is abstracted to a `Nat`. -/
abbrev JRow := Item × Nat

/-- `GoszakupDB.insert_jsonb_batch(table, data)`.  Empty `data` returns at
once, touching no storage.  Otherwise every record is wrapped as
`(Json(record), now)` and appended inside one transaction (the target
reference tables declare no unique constraint, so `ON CONFLICT DO NOTHING`
never suppresses a row).  `failAfter = some j` injects a storage error
after `j` rows of the batch entered the transaction: the handler rolls the
transaction back and re-raises. -/
def insertJsonbBatchRun (s : PGState JRow) (data : List Item) (now : Nat)
    (failAfter : Option Nat) : PersistResult JRow :=
  match data with
  | [] => ⟨s, true, 0⟩
  | _ :: _ =>
    match failAfter with
    | some j =>
      ⟨pgRollback ⟨s.committed, s.pending ++ (data.take j).map (fun r => (r, now))⟩,
        false, 2⟩
    | none =>
      ⟨pgCommit ⟨s.committed, s.pending ++ data.map (fun r => (r, now))⟩, true, 2⟩

/-- A row of a typed fact table: column name to stored value, `none` being
SQL NULL.  A column absent from the list also reads as NULL. -/
abbrev TRow := List (String × Option Value)

/-- The value of column `c` in a typed row (absent column = NULL). -/
def trowGet : TRow → String → Option Value
  | [], _ => none
  | (k, v) :: rest, c => if k = c then v else trowGet rest c

/-- SQL index equality for conflict detection: two key values conflict only
when both are non-NULL and equal (NULLs are distinct in a unique index). -/
def nnEq (x y : Option Value) : Bool :=
  match x, y with
  | some a, some b => decide (a = b)
  | _, _ => false

/-- Whether stored row `r` conflicts with incoming row `new` on every
column of `conflictCols`. -/
def keyMatch (conflictCols : List String) (r new : TRow) : Bool :=
  conflictCols.all (fun c => nnEq (trowGet r c) (trowGet new c))

/-- Set column `c` of a typed row to `v` (add it if absent). -/
def setCol : TRow → String → Option Value → TRow
  | [], c, v => [(c, v)]
  | (k, w) :: rest, c, v =>
    if k = c then (c, v) :: rest else (k, w) :: setCol rest c v

/-- `DO UPDATE SET col = EXCLUDED.col` for each update column: overwrite
those columns of the existing row `r` with the incoming row's values. -/
def updateRow (updateCols : List String) (new r : TRow) : TRow :=
  updateCols.foldl (fun acc c => setCol acc c (trowGet new c)) r

/-- Apply one incoming row to the table: if some stored row conflicts on
the key columns, overwrite its update columns in place; otherwise keep
scanning.  `none` means no stored row conflicted. -/
def upsertRowGo (conflictCols updateCols : List String) (new : TRow) :
    List TRow → Option (List TRow)
  | [] => none
  | r :: rest =>
    if keyMatch conflictCols r new then
      some (updateRow updateCols new r :: rest)
    else
      match upsertRowGo conflictCols updateCols new rest with
      | some rest2 => some (r :: rest2)
      | none => none

/-- `INSERT ... ON CONFLICT (conflictCols) DO UPDATE SET ...` for a single
incoming row: update the conflicting row if one exists, else insert the
row fresh at the end. -/
def upsertRow (conflictCols updateCols : List String) (tbl : List TRow)
    (new : TRow) : List TRow :=
  match upsertRowGo conflictCols updateCols new tbl with
  | some tbl2 => tbl2
  | none => tbl ++ [new]

/-- The row built for an item by `upsert_batch`: one cell per column of the
batch (the first item's keys), with `record.get(col)` as the value —
`none`/NULL when the item lacks the key. -/
def buildRow (columns : List String) (it : Item) : TRow :=
  columns.map (fun c => (c, itemGet it c))

/-- Process the batch's rows in order against the table. -/
def applyUpserts (conflictCols updateCols : List String) (tbl : List TRow)
    (rows : List TRow) : List TRow :=
  rows.foldl (upsertRow conflictCols updateCols) tbl

/-- `GoszakupDB.upsert_batch(table, data, conflict_columns)`.  Empty `data`
returns at once, touching no storage.  Otherwise the column list is the
first item's keys, the update columns are the non-conflict columns in that
list, and all rows are applied inside one transaction;
`failAfter = some j` injects a storage error after `j` rows, triggering the
handler's rollback and re-raise. -/
def upsertBatchRun (s : PGState TRow) (data : List Item)
    (conflictCols : List String) (failAfter : Option Nat) :
    PersistResult TRow :=
  match data with
  | [] => ⟨s, true, 0⟩
  | first :: _ =>
    match failAfter with
    | some j =>
      ⟨pgRollback ⟨s.committed,
          applyUpserts conflictCols
            ((itemKeys first).filter (fun c => decide (c ∉ conflictCols)))
            s.pending ((data.take j).map (buildRow (itemKeys first)))⟩,
        false, 2⟩
    | none =>
      ⟨pgCommit ⟨s.committed,
          applyUpserts conflictCols
            ((itemKeys first).filter (fun c => decide (c ∉ conflictCols)))
            s.pending (data.map (buildRow (itemKeys first)))⟩,
        true, 2⟩

-- Concrete data for the upsert claims.

/-- The item `{id: 1, val: "a"}`. -/
def itemIdA : Item := [("id", Value.int 1), ("val", Value.str "a")]

/-- The item `{id: 1, val: "b"}`. -/
def itemIdB : Item := [("id", Value.int 1), ("val", Value.str "b")]

/-- The item `{id: 2, val: "c"}`. -/
def itemIdC : Item := [("id", Value.int 2), ("val", Value.str "c")]

-- ============================================================
-- DAG model (src/dags/goszakup_etl_dag.py)
-- ============================================================

/-- The tasks of the `goszakup_full_etl` DAG. -/
inductive EtlTask where
  | checkDb | references | subjects | rnu | plans | announcements
  | applications | lots | contracts | acts | payments | statistics
deriving DecidableEq, Repr

/-- The dependency edges wired at the bottom of the DAG file with `>>`. -/
def etlEdges : List (EtlTask × EtlTask) :=
  [(.checkDb, .references),
   (.references, .subjects), (.references, .rnu), (.references, .plans),
   (.plans, .announcements),
   (.announcements, .applications), (.announcements, .lots),
   (.lots, .contracts),
   (.contracts, .acts), (.contracts, .payments),
   (.subjects, .statistics), (.rnu, .statistics),
   (.acts, .statistics), (.payments, .statistics)]

/-- A scheduler event: a task starting or completing. -/
inductive Ev where
  | start (t : EtlTask)
  | finish (t : EtlTask)
deriving DecidableEq, Repr

/-- Airflow's execution rule over an event sequence: a task may start only
when every upstream task of the edge list has already completed, and may
complete only after it has started.  `started`/`finished` accumulate the
tasks already started/completed in the consumed prefix. -/
def validFrom (edges : List (EtlTask × EtlTask)) :
    List EtlTask → List EtlTask → List Ev → Bool
  | _, _, [] => true
  | started, finished, .start t :: rest =>
    edges.all (fun e => decide (e.2 ≠ t) || decide (e.1 ∈ finished)) &&
      validFrom edges (t :: started) finished rest
  | started, finished, .finish t :: rest =>
    decide (t ∈ started) && validFrom edges started (t :: finished) rest

/-- A schedule the Airflow scheduler could execute for the given edges. -/
abbrev ValidSched (edges : List (EtlTask × EtlTask)) (sched : List Ev) : Prop :=
  validFrom edges [] [] sched = true

/-- In `sched`, every start of `v` is preceded by a completion of `u`. -/
abbrev StartedAfter (sched : List Ev) (u v : EtlTask) : Prop :=
  ∀ i < sched.length, sched.get? i = some (Ev.start v) →
    ∃ j < i, sched.get? j = some (Ev.finish u)

/-- The events of running the given tasks one at a time, in order. -/
def seqEvents (ts : List EtlTask) : List Ev :=
  (ts.map (fun t => [Ev.start t, Ev.finish t])).flatten

/-- A sequential schedule with `subjects` before `rnu`. -/
def schedA : List Ev :=
  seqEvents [EtlTask.checkDb, EtlTask.references, EtlTask.subjects, EtlTask.rnu,
    EtlTask.plans, EtlTask.announcements, EtlTask.applications, EtlTask.lots,
    EtlTask.contracts, EtlTask.acts, EtlTask.payments, EtlTask.statistics]

/-- A sequential schedule with `rnu` before `subjects`. -/
def schedB : List Ev :=
  seqEvents [EtlTask.checkDb, EtlTask.references, EtlTask.rnu, EtlTask.subjects,
    EtlTask.plans, EtlTask.announcements, EtlTask.applications, EtlTask.lots,
    EtlTask.contracts, EtlTask.acts, EtlTask.payments, EtlTask.statistics]

/-- A schedule in which `subjects` and `rnu` run concurrently: both start
before either completes. -/
def schedC : List Ev :=
  [Ev.start EtlTask.checkDb, Ev.finish EtlTask.checkDb,
   Ev.start EtlTask.references, Ev.finish EtlTask.references,
   Ev.start EtlTask.subjects, Ev.start EtlTask.rnu,
   Ev.finish EtlTask.rnu, Ev.finish EtlTask.subjects] ++
  seqEvents [EtlTask.plans, EtlTask.announcements, EtlTask.applications, EtlTask.lots,
    EtlTask.contracts, EtlTask.acts, EtlTask.payments, EtlTask.statistics]

-- ============================================================
-- Theorems
-- ============================================================

-- Helper lemmas about `_make_request`.

/-- If every attempt from `attempt` on raises a `RequestException`, the
remaining loop iterations all fail: the request returns `None` after
exactly `remaining` further attempts, sleeping `2 ^ i` after each failed
attempt `i` except the last. -/
lemma makeRequestGo_fail (outcomes : Nat → Outcome) (rc d : Nat) :
    ∀ remaining attempt, attempt + remaining = rc → 1 ≤ remaining →
    (∀ i, attempt ≤ i → i < rc → isFailure (outcomes i) = true) →
    makeRequestGo outcomes rc d attempt remaining =
      ⟨none, remaining, (List.range' attempt (remaining - 1)).map (fun i => 2 ^ i)⟩ := by
  intro remaining
  induction remaining with
  | zero => intro attempt _ h1 _; omega
  | succ r ih =>
    intro attempt hsum _ hfail
    have hfa := hfail attempt le_rfl (by omega)
    simp only [makeRequestGo]
    cases ho : outcomes attempt
    case success resp => rw [ho] at hfa; simp [isFailure] at hfa
    all_goals
      simp only [ho]
      cases r with
      | zero =>
        rw [if_neg (by omega : ¬ attempt < rc - 1)]
        simp [List.range']
      | succ r2 =>
        rw [if_pos (by omega : attempt < rc - 1)]
        rw [ih (attempt + 1) (by omega) (by omega)
          (fun i hi1 hi2 => hfail i (by omega) hi2)]
        simp [List.range'_succ]

/-- If the first `j` attempts fail and at least `j` retries remain in the
loop, the first `j` recorded sleeps are the backoff sleeps
`2 ^ attempt, …, 2 ^ (attempt + j - 1)`. -/
lemma makeRequestGo_sleeps_take (outcomes : Nat → Outcome) (rc d : Nat) :
    ∀ j attempt remaining, attempt + remaining = rc → j + 1 ≤ remaining →
    (∀ i, attempt ≤ i → i < attempt + j → isFailure (outcomes i) = true) →
    (makeRequestGo outcomes rc d attempt remaining).sleeps.take j =
      (List.range' attempt j).map (fun i => 2 ^ i) := by
  intro j
  induction j with
  | zero => intros; simp
  | succ j2 ih =>
    intro attempt remaining hsum hle hfail
    obtain ⟨r, rfl⟩ : ∃ r, remaining = r + 1 := ⟨remaining - 1, by omega⟩
    have hfa := hfail attempt le_rfl (by omega)
    simp only [makeRequestGo]
    cases ho : outcomes attempt
    case success resp => rw [ho] at hfa; simp [isFailure] at hfa
    all_goals
      simp only [ho]
      rw [if_pos (by omega : attempt < rc - 1)]
      simp only [List.take_succ_cons]
      rw [ih (attempt + 1) r (by omega) (by omega)
        (fun i hi1 hi2 => hfail i (by omega) (by omega))]
      rw [List.range'_succ]
      simp

/-- Claim C1 (amended).  `_make_request` does not distinguish 4xx responses
from transient failures: `response.raise_for_status()` raises an
`HTTPError`, which the `except requests.exceptions.RequestException`
handler catches like any timeout, so a 401 (or any other 4xx) is retried
like every failure.  When all `retry_count` attempts raise, the client
performs all `retry_count` attempts (hence `retry_count - 1` retries, not
zero), sleeps the exponential backoff schedule between them, and finally
returns `None` — no `AuthOrClientError` (or any other exception) reaches
the caller, and the result is independent of the HTTP status. -/
theorem c1_all_client_errors_retried (outcomes : Nat → Outcome) (rc d : Nat)
    (hrc : 1 ≤ rc) (hfail : ∀ i, i < rc → isFailure (outcomes i) = true) :
    makeRequest outcomes rc d =
      ⟨none, rc, (List.range (rc - 1)).map (fun i => 2 ^ i)⟩ := by
  unfold makeRequest
  rw [makeRequestGo_fail outcomes rc d rc 0 (by omega) hrc (fun i _ h2 => hfail i h2)]
  rw [List.range_eq_range']

/-- Claim C1, counterexample to the claim as stated: a request answered
401 on every attempt is tried 3 times under `retry_count = 3` — two
retries, not zero — and ends in `None` rather than in a distinguished
auth error. -/
theorem c1_counterexample :
    (makeRequest (fun _ => Outcome.httpError 401) 3 1).attempts = 3 ∧
    (makeRequest (fun _ => Outcome.httpError 401) 3 1).response = none := by
  exact ⟨rfl, rfl⟩

/-- Claim C1, witness: the amended theorem applied to a request that is
answered 401 on all of its 3 attempts. -/
theorem c1_witness :
    makeRequest (fun _ => Outcome.httpError 401) 3 1 = ⟨none, 3, [1, 2]⟩ := by
  rw [c1_all_client_errors_retried (fun _ => Outcome.httpError 401) 3 1
    (by omega) (fun i _ => rfl)]
  rfl

/-- Claim C8.  When the first `k` attempts of a request fail and the loop
still has a `k`-th retry (`k ≤ retry_count - 1`), the first `k` sleeps are
exactly `base_delay * backoff_multiplier ^ (j - 1)` before retry attempt
`j` (1-indexed `j = 1 .. k`, entry `j - 1` of the list), with the
hardcoded `base_delay = 1` second and `backoff_multiplier = 2` of
`time.sleep(2 ** attempt)`; and every such wait is bounded by
`base_delay * backoff_multiplier ^ (retry_count - 2)`, the largest wait the
bounded attempt loop can ever schedule. -/
theorem c8_backoff_schedule (outcomes : Nat → Outcome) (rc d k : Nat)
    (hk1 : 1 ≤ k) (hk2 : k ≤ rc - 1)
    (hfail : ∀ i, i < k → isFailure (outcomes i) = true) :
    (makeRequest outcomes rc d).sleeps.take k =
      (List.range k).map (fun i => base_delay * backoff_multiplier ^ i) ∧
    ∀ w ∈ (makeRequest outcomes rc d).sleeps.take k,
      w ≤ base_delay * backoff_multiplier ^ (rc - 2) := by
  have h1 : (makeRequest outcomes rc d).sleeps.take k =
      (List.range' 0 k).map (fun i => 2 ^ i) := by
    unfold makeRequest
    exact makeRequestGo_sleeps_take outcomes rc d k 0 rc (by omega) (by omega)
      (fun i _ hi2 => hfail i (by omega))
  rw [← List.range_eq_range'] at h1
  constructor
  · rw [h1]
    simp [base_delay, backoff_multiplier]
  · intro w hw
    rw [h1] at hw
    simp only [List.mem_map, List.mem_range] at hw
    obtain ⟨i, hi, rfl⟩ := hw
    simp only [base_delay, backoff_multiplier, one_mul]
    exact Nat.pow_le_pow_right (by omega) (by omega)

/-- Claim C8, witness: with `retry_count = 3` and both attempts failing,
the two retry waits are 1 s and 2 s, matching `1 * 2 ^ (k - 1)`. -/
theorem c8_witness :
    (makeRequest (fun _ => Outcome.netError) 3 1).sleeps.take 2 = [1, 2] := by
  rw [(c8_backoff_schedule (fun _ => Outcome.netError) 3 1 2
    (by omega) (by omega) (fun i _ => rfl)).1]
  rfl

-- Helper lemmas about `_paginate`.

/-- Running the pagination loop over a complete chain of pages appends
exactly the pages' item lists, in page order, to the accumulator. -/
lemma chainDone_paginateGo {server : Option String → Nat → Outcome}
    {rc d : Nat} :
    ∀ {cur pages}, ChainDone server rc d cur pages →
    ∀ fuel, pages.length ≤ fuel → ∀ acc,
      paginateGo server rc d fuel cur acc =
        some (acc ++ (pages.map ApiResponse.items).flatten) := by
  intro cur pages h
  induction h with
  | last cur resp hresp hterm =>
    intro fuel hf acc
    obtain ⟨f, rfl⟩ : ∃ f, fuel = f + 1 := ⟨fuel - 1, by simp at hf; omega⟩
    simp only [paginateGo, hresp]
    rcases hterm with h1 | h1 <;> simp [h1]
  | step cur resp np rest hresp hnp hne hrest ih =>
    intro fuel hf acc
    obtain ⟨f, rfl⟩ : ∃ f, fuel = f + 1 := ⟨fuel - 1, by simp at hf; omega⟩
    simp only [paginateGo, hresp, hnp]
    rw [if_neg hne]
    rw [ih f (by simp at hf; omega) (acc ++ resp.items)]
    simp

/-- Running the pagination loop over a chain of successful pages whose
successor request exhausts its retries still returns the accumulated
items of the successful prefix. -/
lemma chainFail_paginateGo {server : Option String → Nat → Outcome}
    {rc d : Nat} :
    ∀ {cur pages}, ChainFail server rc d cur pages →
    ∀ fuel, pages.length + 1 ≤ fuel → ∀ acc,
      paginateGo server rc d fuel cur acc =
        some (acc ++ (pages.map ApiResponse.items).flatten) := by
  intro cur pages h
  induction h with
  | last cur hresp =>
    intro fuel hf acc
    obtain ⟨f, rfl⟩ : ∃ f, fuel = f + 1 := ⟨fuel - 1, by omega⟩
    simp only [paginateGo, hresp]
    simp
  | step cur resp np rest hresp hnp hne hrest ih =>
    intro fuel hf acc
    obtain ⟨f, rfl⟩ : ∃ f, fuel = f + 1 := ⟨fuel - 1, by simp at hf; omega⟩
    simp only [paginateGo, hresp, hnp]
    rw [if_neg hne]
    rw [ih f (by simp at hf; omega) (acc ++ resp.items)]
    simp

/-- If every request succeeds and every response carries a non-empty
`next_page`, the `while True` loop of `_paginate` never reaches either of
its two `break` statements: after any number of iterations it is still
running. -/
lemma paginateGo_no_exit (server : Option String → Nat → Outcome) (rc d : Nat)
    (h : ∀ cur, ∃ resp np,
      (makeRequest (server cur) rc d).response = some resp ∧
      resp.next_page = some np ∧ np ≠ "") :
    ∀ fuel cur acc, paginateGo server rc d fuel cur acc = none := by
  intro fuel
  induction fuel with
  | zero => intros; rfl
  | succ f ih =>
    intro cur acc
    obtain ⟨resp, np, h1, h2, h3⟩ := h cur
    simp only [paginateGo, h1, h2]
    rw [if_neg h3]
    exact ih (some np) (acc ++ resp.items)

/-- Claim C7.  For a run of successfully fetched pages ending with an
absent or empty `next_page`, `_paginate` returns exactly the concatenation
of the pages' item lists — pages in fetch order, items in server order
within each page, nothing reordered or deduplicated. -/
theorem c7_pagination_order (server : Option String → Nat → Outcome)
    (rc d fuel : Nat) (pages : List ApiResponse)
    (h : ChainDone server rc d none pages) (hf : pages.length ≤ fuel) :
    paginate server rc d fuel = some ((pages.map ApiResponse.items).flatten) := by
  unfold paginate
  rw [chainDone_paginateGo h fuel hf []]
  simp

/-- Claim C7, witness: on a mocked endpoint with page sizes 10, 10 and 5
and `next_page` null on the last page, the fetch yields exactly the 25
items in their original relative order. -/
theorem c7_witness : paginate srv7 3 1 3 = some (pageItems 0 25) := by
  have hc : ChainDone srv7 3 1 none
      [⟨pageItems 0 10, some "p2"⟩, ⟨pageItems 10 10, some "p3"⟩,
       ⟨pageItems 20 5, none⟩] := by
    refine ChainDone.step none ⟨pageItems 0 10, some "p2"⟩ "p2" _ rfl rfl
      (by decide) ?_
    refine ChainDone.step (some "p2") ⟨pageItems 10 10, some "p3"⟩ "p3" _ rfl rfl
      (by decide) ?_
    exact ChainDone.last (some "p3") ⟨pageItems 20 5, none⟩ rfl (Or.inl rfl)
  rw [c7_pagination_order srv7 3 1 3 _ hc (by decide)]
  decide

/-- Claim C2 (amended).  `_paginate` keeps no record of visited cursors
and the code base defines no `PaginationLoopError`: the loop leaves only
when a request fails or `next_page` is absent or empty.  On a server whose
responses always succeed and always carry a non-empty `next_page` — in
particular one whose cursor chain revisits an earlier cursor forever —
the fetch never terminates, remaining in the loop after any number of
iterations instead of raising a loop error. -/
theorem c2_no_loop_guard (server : Option String → Nat → Outcome) (rc d : Nat)
    (h : ∀ cur, ∃ resp np,
      (makeRequest (server cur) rc d).response = some resp ∧
      resp.next_page = some np ∧ np ≠ "") (fuel : Nat) :
    paginate server rc d fuel = none :=
  paginateGo_no_exit server rc d h fuel none []

/-- Claim C2, counterexample to the claim as stated: on `cycServer` every
request succeeds and every `next_page` is the already-visited cursor "A",
yet the fetch never terminates — there is no iteration count after which
it has produced any outcome, so no `PaginationLoopError` (nor anything
else) is ever signalled. -/
theorem c2_counterexample :
    ¬ ∃ fuel res, paginate cycServer 3 1 fuel = some res := by
  rintro ⟨fuel, res, hres⟩
  unfold paginate at hres
  rw [paginateGo_no_exit cycServer 3 1
    (fun cur => ⟨⟨[[("k", Value.int 0)]], some "A"⟩, "A", rfl, rfl, by decide⟩)
    fuel none []] at hres
  cases hres

/-- Claim C2, witness: the amended theorem applied to the cyclic server,
still running after 7 iterations. -/
theorem c2_witness : paginate cycServer 3 1 7 = none :=
  c2_no_loop_guard cycServer 3 1
    (fun cur => ⟨⟨[[("k", Value.int 0)]], some "A"⟩, "A", rfl, rfl, by decide⟩) 7

/-- Claim C3 (amended).  When a page request exhausts all its attempts,
`_paginate` hits `if not response: break` and returns the items already
accumulated from the earlier pages — the partial result is kept, but it is
returned as a plain (possibly empty) list: no `FetchExhausted` value exists
in the code base, the exhaustion is only logged, and nothing distinguishes
the partial result from a complete one at the call site. -/
theorem c3_partial_result_kept (server : Option String → Nat → Outcome)
    (rc d fuel : Nat) (pages : List ApiResponse)
    (h : ChainFail server rc d none pages) (hf : pages.length + 1 ≤ fuel) :
    paginate server rc d fuel = some ((pages.map ApiResponse.items).flatten) := by
  unfold paginate
  rw [chainFail_paginateGo h fuel hf []]
  simp

/-- Claim C3, counterexample to the claim as stated: a fetch whose second
page fails all attempts returns exactly the same value as a fetch of a
collection that genuinely ends after the identical first page — the
claimed `FetchExhausted(endpoint, attempts, last_error)` signal does not
reach the caller, who cannot even observe that anything failed. -/
theorem c3_counterexample :
    paginate srvTailFail 3 1 9 = paginate srvComplete 3 1 9 ∧
    paginate srvTailFail 3 1 9 =
      some [[("k", Value.int 1)], [("k", Value.int 2)]] := by
  exact ⟨rfl, rfl⟩

/-- Claim C3, witness: the amended theorem applied to the server whose
second page always fails; the first page's two items are returned. -/
theorem c3_witness :
    paginate srvTailFail 3 1 2 =
      some [[("k", Value.int 1)], [("k", Value.int 2)]] := by
  have hc : ChainFail srvTailFail 3 1 none
      [⟨[[("k", Value.int 1)], [("k", Value.int 2)]], some "p2"⟩] := by
    refine ChainFail.step none ⟨[[("k", Value.int 1)], [("k", Value.int 2)]], some "p2"⟩
      "p2" [] rfl rfl (by decide) ?_
    exact ChainFail.last (some "p2") rfl
  rw [c3_partial_result_kept srvTailFail 3 1 2 _ hc (by decide)]
  rfl

/-- Claim C10 (amended).  On every input on which the fetch terminates it
returns a plain item list — never an exception and never `None` — and in
particular when the very first request exhausts all its retries the fetch
returns `some []`, the very same value it returns for a server whose
collection genuinely contains zero items: the two cases are
indistinguishable at the call site.  (Totality over all inputs fails: see
the counterexample, a cyclic cursor chain on which the fetch never
terminates.) -/
theorem c10_first_page_failure_empty (server : Option String → Nat → Outcome)
    (rc d : Nat) (hrc : 1 ≤ rc)
    (h : (makeRequest (server none) rc d).response = none) :
    ∀ fuel, 1 ≤ fuel →
      paginate server rc d fuel = some [] ∧
      paginate emptyColServer rc d fuel = some [] := by
  intro fuel hf
  obtain ⟨f, rfl⟩ : ∃ f, fuel = f + 1 := ⟨fuel - 1, by omega⟩
  constructor
  · unfold paginate
    simp only [paginateGo, h]
  · unfold paginate
    obtain ⟨r, rfl⟩ : ∃ r, rc = r + 1 := ⟨rc - 1, by omega⟩
    have he : (makeRequest (emptyColServer none) (r + 1) d).response =
        some ⟨[], none⟩ := rfl
    simp only [paginateGo, he]
    rfl

/-- Claim C10, counterexample to the claim as stated: the fetch is not
total over request outcomes — on `cycServer` every single request succeeds,
yet the fetch never returns any value at all. -/
theorem c10_counterexample :
    (makeRequest (cycServer none) 3 1).response ≠ none ∧
    ¬ ∃ fuel res, paginate cycServer 3 1 fuel = some res := by
  constructor
  · intro hco
    cases hco
  · rintro ⟨fuel, res, hres⟩
    unfold paginate at hres
    rw [paginateGo_no_exit cycServer 3 1
      (fun cur => ⟨⟨[[("k", Value.int 0)]], some "A"⟩, "A", rfl, rfl, by decide⟩)
      fuel none []] at hres
    cases hres

/-- Claim C10, witness: the amended theorem applied to a server that is
down on every attempt — the fetch returns `some []`, equal to the result
on the genuinely empty collection. -/
theorem c10_witness :
    paginate downServer 3 1 4 = some [] ∧
    paginate emptyColServer 3 1 4 = some [] :=
  c10_first_page_failure_empty downServer 3 1 (by omega) rfl 4 (by omega)

-- Database claims.

/-- Claim C4.  For every table state with no transaction in progress and
every non-empty batch, a storage failure during the write — no matter how
many rows of the batch had already entered the transaction — triggers the
handler's `conn.rollback()`, and the connection is left exactly as it was
before the call: no partial subset of the batch is committed.  This holds
for both `insert_jsonb_batch` and `upsert_batch`. -/
theorem c4_rollback_restores (sj : PGState JRow) (dataJ : List Item)
    (now j : Nat) (su : PGState TRow) (dataU : List Item)
    (cc : List String) (j2 : Nat)
    (hJ : dataJ ≠ []) (hJs : sj.pending = sj.committed)
    (hU : dataU ≠ []) (hUs : su.pending = su.committed) :
    (insertJsonbBatchRun sj dataJ now (some j)).state = sj ∧
    (upsertBatchRun su dataU cc (some j2)).state = su := by
  constructor
  · obtain ⟨a, l, rfl⟩ : ∃ a l, dataJ = a :: l := by
      cases dataJ with
      | nil => simp at hJ
      | cons a l => exact ⟨a, l, rfl⟩
    cases sj with
    | mk c p =>
      have hpc : p = c := hJs
      subst hpc
      rfl
  · obtain ⟨a, l, rfl⟩ : ∃ a l, dataU = a :: l := by
      cases dataU with
      | nil => simp at hU
      | cons a l => exact ⟨a, l, rfl⟩
    cases su with
    | mk c p =>
      have hpc : p = c := hUs
      subst hpc
      rfl

/-- Claim C4, witness: a failure after one row of a two-row batch leaves a
one-row table exactly as it was, in both modes. -/
theorem c4_witness :
    (insertJsonbBatchRun ⟨[(itemIdA, 1)], [(itemIdA, 1)]⟩ [itemIdB, itemIdC]
        9 (some 1)).state = ⟨[(itemIdA, 1)], [(itemIdA, 1)]⟩ ∧
    (upsertBatchRun ⟨[], []⟩ [itemIdA, itemIdC] ["id"] (some 1)).state =
      ⟨[], []⟩ :=
  c4_rollback_restores ⟨[(itemIdA, 1)], [(itemIdA, 1)]⟩ [itemIdB, itemIdC] 9 1
    ⟨[], []⟩ [itemIdA, itemIdC] ["id"] 1 (by decide) rfl (by decide) rfl

/-- Claim C5.  Typed upsert behaviour of `upsert_batch`, on concrete runs
of the full function: (1) persisting `{id: 1, val: "a"}` and then
`{id: 1, val: "b"}` with conflict key `id` leaves exactly one committed
row, whose `val` is `"b"` (last writer wins: the non-key column of the
existing row is overwritten); (2) the column set is the first item's keys
and a later item missing one of those keys contributes NULL for it;
(3) an item whose conflict key is unseen is inserted as a fresh row. -/
theorem c5_typed_upsert_lww :
    (upsertBatchRun (upsertBatchRun ⟨[], []⟩ [itemIdA] ["id"] none).state
        [itemIdB] ["id"] none).state.committed =
      [[("id", some (Value.int 1)), ("val", some (Value.str "b"))]] ∧
    (upsertBatchRun ⟨[], []⟩
        [[("a", Value.int 1), ("b", Value.int 2)], [("a", Value.int 3)]]
        ["a"] none).state.committed =
      [[("a", some (Value.int 1)), ("b", some (Value.int 2))],
       [("a", some (Value.int 3)), ("b", none)]] ∧
    (upsertBatchRun (upsertBatchRun (upsertBatchRun ⟨[], []⟩
        [itemIdA] ["id"] none).state [itemIdB] ["id"] none).state
        [itemIdC] ["id"] none).state.committed =
      [[("id", some (Value.int 1)), ("val", some (Value.str "b"))],
       [("id", some (Value.int 2)), ("val", some (Value.str "c"))]] := by
  exact ⟨rfl, rfl, rfl⟩

/-- Claim C6.  For every table state, persisting an empty batch is a
no-op in both modes: the `if not data: return` guard fires first, so the
state is unchanged (zero rows written), the call returns normally, and
zero storage commands are issued. -/
theorem c6_empty_batch_noop (sj : PGState JRow) (su : PGState TRow)
    (now : Nat) (cc : List String) (fa fb : Option Nat) :
    insertJsonbBatchRun sj [] now fa = ⟨sj, true, 0⟩ ∧
    upsertBatchRun su [] cc fb = ⟨su, true, 0⟩ :=
  ⟨rfl, rfl⟩

-- DAG claim.

/-- In a schedule accepted by `validFrom`, every occurrence of `start v`
for a dependent `v` of edge `(u, v)` is preceded by `finish u`, unless `u`
was already recorded as finished in the accumulator. -/
lemma validFrom_start_after (edges : List (EtlTask × EtlTask)) (u v : EtlTask)
    (huv : (u, v) ∈ edges) :
    ∀ (sched : List Ev) (started finished : List EtlTask),
      validFrom edges started finished sched = true →
      ∀ i, sched.get? i = some (Ev.start v) →
        u ∈ finished ∨ ∃ j < i, sched.get? j = some (Ev.finish u) := by
  intro sched
  induction sched with
  | nil =>
    intro started finished _ i hi
    rw [List.get?_nil] at hi
    cases hi
  | cons ev rest ih =>
    intro started finished hv i hi
    cases ev with
    | start t =>
      rw [validFrom, Bool.and_eq_true] at hv
      obtain ⟨hall, hrest⟩ := hv
      cases i with
      | zero =>
        rw [List.get?_cons_zero] at hi
        simp only [Option.some.injEq, Ev.start.injEq] at hi
        subst hi
        rw [List.all_eq_true] at hall
        have hone := hall _ huv
        simp only [Bool.or_eq_true, decide_eq_true_eq] at hone
        rcases hone with hbad | hmem
        · exact absurd rfl hbad
        · exact Or.inl hmem
      | succ i2 =>
        rw [List.get?_cons_succ] at hi
        rcases ih (t :: started) finished hrest i2 hi with hmem | ⟨j, hj, hjf⟩
        · exact Or.inl hmem
        · exact Or.inr ⟨j + 1, by omega, by rwa [List.get?_cons_succ]⟩
    | finish t =>
      rw [validFrom, Bool.and_eq_true] at hv
      obtain ⟨_, hrest⟩ := hv
      cases i with
      | zero =>
        rw [List.get?_cons_zero] at hi
        simp at hi
      | succ i2 =>
        rw [List.get?_cons_succ] at hi
        rcases ih started (t :: finished) hrest i2 hi with hmem | ⟨j, hj, hjf⟩
        · rcases List.mem_cons.mp hmem with rfl | h2
          · exact Or.inr ⟨0, by omega, rfl⟩
          · exact Or.inl h2
        · exact Or.inr ⟨j + 1, by omega, by rwa [List.get?_cons_succ]⟩

/-- Specialisation to a whole schedule, where nothing is finished yet. -/
lemma valid_startedAfter (u v : EtlTask) (huv : (u, v) ∈ etlEdges)
    (sched : List Ev) (h : ValidSched etlEdges sched) :
    StartedAfter sched u v := by
  intro i _ hstart
  rcases validFrom_start_after etlEdges u v huv sched [] [] h i hstart
    with hmem | hex
  · simp at hmem
  · exact hex

/-- Claim C9.  Under the task wiring of `goszakup_full_etl`, in every
schedule the Airflow rule accepts no entity load starts before its declared
ancestors have completed: `subjects`, `rnu` and `plans` start only after
`references` completes, `announcements` only after `plans`, `applications`
and `lots` only after `announcements`, `contracts` only after `lots`, and
`acts` and `payments` only after `contracts`.  Meanwhile `subjects` and
`rnu` are mutually unordered: valid schedules exist in which either starts
while the other has not finished, and one in which they overlap in both
directions (running concurrently). -/
theorem c9_dependency_order (sched : List Ev) (h : ValidSched etlEdges sched) :
    (StartedAfter sched EtlTask.references EtlTask.subjects ∧
     StartedAfter sched EtlTask.references EtlTask.rnu ∧
     StartedAfter sched EtlTask.references EtlTask.plans ∧
     StartedAfter sched EtlTask.plans EtlTask.announcements ∧
     StartedAfter sched EtlTask.announcements EtlTask.applications ∧
     StartedAfter sched EtlTask.announcements EtlTask.lots ∧
     StartedAfter sched EtlTask.lots EtlTask.contracts ∧
     StartedAfter sched EtlTask.contracts EtlTask.acts ∧
     StartedAfter sched EtlTask.contracts EtlTask.payments) ∧
    (∃ s, ValidSched etlEdges s ∧
      ¬ StartedAfter s EtlTask.rnu EtlTask.subjects) ∧
    (∃ s, ValidSched etlEdges s ∧
      ¬ StartedAfter s EtlTask.subjects EtlTask.rnu) ∧
    (∃ s, ValidSched etlEdges s ∧
      ¬ StartedAfter s EtlTask.rnu EtlTask.subjects ∧
      ¬ StartedAfter s EtlTask.subjects EtlTask.rnu) := by
  refine ⟨⟨?_, ?_, ?_, ?_, ?_, ?_, ?_, ?_, ?_⟩,
    ⟨schedA, by decide, by decide⟩, ⟨schedB, by decide, by decide⟩,
    ⟨schedC, by decide, by decide, by decide⟩⟩
  all_goals exact valid_startedAfter _ _ (by decide) sched h

/-- Claim C9, witness: the ordering component of the theorem applied to
the concrete sequential schedule `schedA`, which `validFrom` accepts. -/
theorem c9_witness :
    StartedAfter schedA EtlTask.references EtlTask.subjects ∧
    StartedAfter schedA EtlTask.references EtlTask.rnu ∧
    StartedAfter schedA EtlTask.references EtlTask.plans ∧
    StartedAfter schedA EtlTask.plans EtlTask.announcements ∧
    StartedAfter schedA EtlTask.announcements EtlTask.applications ∧
    StartedAfter schedA EtlTask.announcements EtlTask.lots ∧
    StartedAfter schedA EtlTask.lots EtlTask.contracts ∧
    StartedAfter schedA EtlTask.contracts EtlTask.acts ∧
    StartedAfter schedA EtlTask.contracts EtlTask.payments :=
  (c9_dependency_order schedA (by decide)).1
